import Mathlib

/-!
Shallow embedding of `pykube/http.py` (class `HTTPClient`): URL resolution
(`get_kwargs`), error translation (`raise_for_status`) and session
construction (`build_session`), together with the Python library functions
they rely on (`posixpath.join`, `str.startswith`, dict access).
-/

namespace Pykube

/-! ### Python string primitives, modelled on the character list -/

/-- Python `s.startswith("/")` for the single character `/`. -/
def headIsSlash (s : String) : Bool :=
  s.data.head? = some '/'

/-- Whether `s` ends with `/`, i.e. Python `s.endswith("/")`. -/
def lastIsSlash (s : String) : Bool :=
  s.data.getLast? = some '/'

/-- Python `s[1:]`. -/
def strTail (s : String) : String :=
  ⟨s.data.drop 1⟩

/-- Python `s.startswith(p)` for a general p. -/
def pyStartsWith (s p : String) : Bool :=
  p.data.isPrefixOf s.data

/-! ### `posixpath.join`

CPython's `posixpath.join(a, *p)` folds over the extra components: a
component starting with `/` replaces the path built so far; otherwise it is
appended, inserting `/` unless the path so far is empty or already ends
with `/`. -/

/-- One step of CPython `posixpath.join`: absorb component `b` into `path`. -/
def posixJoinStep (path b : String) : String :=
  if headIsSlash b then b
  else if path = "" ∨ lastIsSlash path then path ++ b
  else path ++ "/" ++ b

/-- CPython `posixpath.join a p₁ ... pₙ` as a fold over the components. -/
def posixpathJoin (a : String) (ps : List String) : String :=
  ps.foldl posixJoinStep a

/-! ### `HTTPClient.get_kwargs` -/

/-- The message of the `TypeError` raised for an unknown API version. -/
def unknownApiVersionMsg : String :=
  "unknown API version; base kwarg must be specified."

/-- Lines 51-61 of `http.py`: select the path prefix `base` from the API
`version` and the optional caller-supplied `base` kwarg. -/
def resolve_base (version : String) (base : Option String) : Except String String :=
  if version = "v1" then .ok (base.getD "/api")
  else if pyStartsWith version "extensions/" then .ok (base.getD "/apis")
  else if pyStartsWith version "batch/" then .ok (base.getD "/apis")
  else
    match base with
    | none => .error unknownApiVersionMsg
    | some b => .ok b

/-- Lines 73-75 of `http.py`: strip one leading `/` from the `url` kwarg. -/
def stripLeadingSlash (url : String) : String :=
  if headIsSlash url then strTail url else url

/-- Lines 62-77 of `http.py`: the path part of the final URL, joined with
`posixpath.join` from `base`, `version`, the optional `namespace` and
`pods` segment pairs, and the stripped `url` tail. -/
def resolvePath (base version : String) (ns pods : Option String) (url : String) : String :=
  posixpathJoin base
    ([version]
      ++ (match ns with | some n => ["namespaces", n] | none => [])
      ++ (match pods with | some p => ["pods", p] | none => [])
      ++ [stripLeadingSlash url])

/-- A Python keyword-argument dict with string values, as a partial map. -/
abbrev Params := String → Option String

/-- Removing a key from a kwargs dict (the effect of `dict.pop`). -/
def Params.erase (p : Params) (k : String) : Params :=
  fun k2 => if k2 = k then none else p k2

/-- Setting a key in a kwargs dict (`kwargs["url"] = ...`). -/
def Params.insert (p : Params) (k v : String) : Params :=
  fun k2 => if k2 = k then some v else p k2

/-- The state of `HTTPClient` needed by `get_kwargs`: `self.url`, the
cluster server URL taken from `config.cluster["server"]`. -/
structure HTTPClient where
  url : String

/-- `HTTPClient.get_kwargs` (lines 44-78 of `http.py`): pop `version`
(default `"v1"`), resolve `base`, pop `namespace` and `pods` when present,
strip the leading `/` of `url`, join everything with `posixpath.join`, and
return the remaining kwargs with `url` replaced by the absolute URL.
A raised `TypeError` is modelled as `Except.error`. -/
def get_kwargs (self : HTTPClient) (kwargs : Params) : Except String Params :=
  let version := (kwargs "version").getD "v1"
  match resolve_base version (kwargs "base") with
  | .error e => .error e
  | .ok base =>
    let final := self.url ++
      resolvePath base version (kwargs "namespace") (kwargs "pods")
        ((kwargs "url").getD "")
    .ok (((((kwargs.erase "version").erase "base").erase "namespace").erase
          "pods").insert "url" final)

/-! ### `HTTPClient.raise_for_status`

The Python body is

```
try:
    resp.raise_for_status()
except Exception:
    if resp.headers["content-type"] == "application/json":
        payload = resp.json()
        if payload["kind"] == "Status":
            raise HTTPError(payload["message"])
    raise
```

with no inner `try`: each of `resp.headers["content-type"]` (KeyError when
the header is missing), `resp.json()` (decode error on a malformed body)
and `payload["kind"]` / `payload["message"]` (KeyError) can itself raise,
replacing the exception being handled. -/

/-- The exceptions that `raise_for_status` can let escape. -/
inductive PyError where
  /-- `requests.HTTPError` raised by `resp.raise_for_status()`. -/
  | transportError (status : Nat)
  /-- pykube `HTTPError(message)`. -/
  | httpError (message : String)
  /-- Python `KeyError` from a missing dict key. -/
  | keyError (key : String)
  /-- the decode error raised by `resp.json()` on a malformed body. -/
  | jsonDecodeError
deriving DecidableEq, Repr

/-- A `requests` response, as far as `raise_for_status` observes it:
status code, headers, and the outcome of `resp.json()` — either a decode
failure or a JSON object viewed as a partial map from field names to
string values. -/
structure Response where
  status_code : Nat
  headers : String → Option String
  json : Except Unit (String → Option String)

/-- `requests.Response.raise_for_status`: raises `HTTPError` exactly for
status codes 400-599. -/
def requests_raise_for_status (resp : Response) : Except PyError Unit :=
  if 400 ≤ resp.status_code ∧ resp.status_code < 600 then
    .error (.transportError resp.status_code)
  else .ok ()

/-- `HTTPClient.raise_for_status` (lines 80-90 of `http.py`). -/
def raise_for_status (resp : Response) : Except PyError Unit :=
  match requests_raise_for_status resp with
  | .ok _ => .ok ()
  | .error origErr =>
    match resp.headers "content-type" with
    | none => .error (.keyError "content-type")
    | some ct =>
      if ct = "application/json" then
        match resp.json with
        | .error _ => .error .jsonDecodeError
        | .ok payload =>
          match payload "kind" with
          | none => .error (.keyError "kind")
          | some k =>
            if k = "Status" then
              match payload "message" with
              | none => .error (.keyError "message")
              | some m => .error (.httpError m)
            else .error origErr
      else .error origErr

/-! ### `HTTPClient.build_session` -/

/-- The configuration seen by `build_session`: the `cluster` and `user`
dicts; file references are modelled by the path their `.filename()`
returns. -/
structure Config where
  cluster : Params
  user : Params

/-- A `requests.Session`, as far as `build_session` sets it up: TLS
verification path, default headers, and the client certificate pair. -/
structure Session where
  verify : Option String
  headers : Params
  cert : Option (String × String)

/-- Lines 35-36 of `http.py`: the session's default headers after the
token check — `Authorization: Bearer <token>` is set when `user["token"]`
is present and truthy (a non-empty string). -/
def sessionHeaders (config : Config) : Params :=
  match config.user "token" with
  | some t =>
    if t ≠ "" then Params.insert (fun _ => none) "Authorization" ("Bearer " ++ t)
    else fun _ => none
  | none => fun _ => none

/-- `HTTPClient.build_session` (lines 28-42 of `http.py`): set `s.verify`
from `cluster["certificate-authority"]` when present, the
`Authorization: Bearer <token>` header when `user["token"]` is present and
truthy, and `s.cert` from the certificate/key pair when
`user["client-certificate"]` is present — where `user["client-key"]`
raises `KeyError` if absent. -/
def build_session (config : Config) : Except PyError Session :=
  match config.user "client-certificate" with
  | some cc =>
    match config.user "client-key" with
    | some ck =>
      .ok ⟨config.cluster "certificate-authority", sessionHeaders config, some (cc, ck)⟩
    | none => .error (.keyError "client-key")
  | none => .ok ⟨config.cluster "certificate-authority", sessionHeaders config, none⟩

/-! ### Helper lemmas about the string primitives -/

/-- A segment containing no `/` character. -/
def slashFree (s : String) : Prop := ('/' : Char) ∉ s.data

instance (s : String) : Decidable (slashFree s) := by
  unfold slashFree; infer_instance

theorem data_eq_nil_iff (s : String) : s.data = [] ↔ s = "" := by
  constructor
  · intro h; exact String.ext h
  · intro h; subst h; rfl

theorem data_ne_nil_of_ne_empty {s : String} (h : s ≠ "") : s.data ≠ [] :=
  fun hd => h ((data_eq_nil_iff s).mp hd)

theorem append_ne_empty_left (s t : String) (h : s ≠ "") : s ++ t ≠ "" := by
  intro he
  have := congrArg String.data he
  rw [String.data_append] at this
  exact data_ne_nil_of_ne_empty h (List.append_eq_nil.mp this).1

theorem headIsSlash_eq_false_of_slashFree {s : String} (h : slashFree s) :
    headIsSlash s = false := by
  unfold headIsSlash
  cases hd : s.data.head? with
  | none => simp
  | some c =>
    have hc : c ∈ s.data := List.mem_of_mem_head? (by rw [hd]; rfl)
    have : c ≠ '/' := fun hc' => h (hc' ▸ hc)
    simp [this]

theorem getLast?_mem_of_eq_some {α : Type} {l : List α} {c : α}
    (h : l.getLast? = some c) : c ∈ l := by
  induction l with
  | nil => simp at h
  | cons a t ih =>
    cases t with
    | nil => simp at h; simp [h]
    | cons b t' =>
      rw [List.getLast?_cons_cons] at h
      exact List.mem_cons_of_mem a (ih h)

theorem lastIsSlash_eq_false_of_slashFree {s : String} (h : slashFree s) :
    lastIsSlash s = false := by
  unfold lastIsSlash
  cases hd : s.data.getLast? with
  | none => simp
  | some c =>
    have hc : c ∈ s.data := getLast?_mem_of_eq_some hd
    have : c ≠ '/' := fun hc' => h (hc' ▸ hc)
    simp [this]

theorem lastIsSlash_append (s t : String) (h : t ≠ "") :
    lastIsSlash (s ++ t) = lastIsSlash t := by
  unfold lastIsSlash
  rw [String.data_append, List.getLast?_append_of_ne_nil _ (data_ne_nil_of_ne_empty h)]

theorem lastIsSlash_append_slash (s : String) : lastIsSlash (s ++ "/") = true := by
  rw [lastIsSlash_append s "/" (by decide)]; rfl

theorem headIsSlash_append (s t : String) (h : s ≠ "") :
    headIsSlash (s ++ t) = headIsSlash s := by
  unfold headIsSlash
  rw [String.data_append]
  cases hd : s.data with
  | nil => exact absurd hd (data_ne_nil_of_ne_empty h)
  | cons c l => rfl

/-! ### Behaviour of `posixpath.join` on clean segments -/

theorem posixJoinStep_clean {p b : String} (hb : headIsSlash b = false)
    (hp : p ≠ "") (hl : lastIsSlash p = false) :
    posixJoinStep p b = p ++ "/" ++ b := by
  unfold posixJoinStep
  rw [hb]
  simp [hp, hl]

theorem posixJoinStep_slashEnd {p b : String} (hb : headIsSlash b = false)
    (hl : lastIsSlash p = true) :
    posixJoinStep p b = p ++ b := by
  unfold posixJoinStep
  rw [hb, hl]
  simp

theorem posixpathJoin_nil (a : String) : posixpathJoin a [] = a := rfl

theorem posixpathJoin_cons (a x : String) (ps : List String) :
    posixpathJoin a (x :: ps) = posixpathJoin (posixJoinStep a x) ps := rfl

theorem posixpathJoin_append (a : String) (ps qs : List String) :
    posixpathJoin a (ps ++ qs) = posixpathJoin (posixpathJoin a ps) qs :=
  List.foldl_append ..

/-- The canonical path a list of segments joins to: `/s₁/s₂/.../sₙ`. -/
def canonPath : List String → String
  | [] => ""
  | s :: ps => "/" ++ s ++ canonPath ps

/-- On a nonempty accumulator not ending in `/` and slash-free nonempty
segments, `posixpath.join` inserts exactly one `/` before each segment,
and the result is again nonempty and does not end in `/`. -/
theorem posixpathJoin_clean : ∀ (ps : List String) (a : String), a ≠ "" →
    lastIsSlash a = false → (∀ s ∈ ps, slashFree s ∧ s ≠ "") →
    posixpathJoin a ps = a ++ canonPath ps
    ∧ posixpathJoin a ps ≠ "" ∧ lastIsSlash (posixpathJoin a ps) = false
  | [], a, ha, hla, _ => by
    refine ⟨?_, ha, hla⟩
    rw [posixpathJoin_nil, canonPath, String.append_empty]
  | x :: ps, a, ha, hla, hps => by
    have hx := hps x (List.mem_cons_self x ps)
    have hstep : posixJoinStep a x = a ++ "/" ++ x :=
      posixJoinStep_clean (headIsSlash_eq_false_of_slashFree hx.1) ha hla
    have hane : a ++ "/" ++ x ≠ "" :=
      append_ne_empty_left _ _ (append_ne_empty_left _ _ ha)
    have hal : lastIsSlash (a ++ "/" ++ x) = false := by
      rw [lastIsSlash_append _ _ hx.2]
      exact lastIsSlash_eq_false_of_slashFree hx.1
    have ih := posixpathJoin_clean ps (a ++ "/" ++ x) hane hal
      (fun s hs => hps s (List.mem_cons_of_mem x hs))
    rw [posixpathJoin_cons, hstep]
    refine ⟨?_, ih.2⟩
    rw [ih.1, canonPath]
    apply String.ext
    simp [String.data_append]

/-- Adding a trailing `/` to a clean accumulator does not change the next
join step. -/
theorem posixJoinStep_trailing {acc y : String} (hacc : acc ≠ "")
    (hl : lastIsSlash acc = false) (hy : headIsSlash y = false) :
    posixJoinStep (acc ++ "/") y = posixJoinStep acc y := by
  rw [posixJoinStep_slashEnd hy (lastIsSlash_append_slash acc),
    posixJoinStep_clean hy hacc hl]

/-- Joining a segment with a trailing slash onto a clean accumulator gives
the same as joining the bare segment, followed by the slash. -/
theorem posixJoinStep_trailing_piece {acc x : String} (hacc : acc ≠ "")
    (hl : lastIsSlash acc = false) (hx : headIsSlash x = false) (hxne : x ≠ "") :
    posixJoinStep acc (x ++ "/") = posixJoinStep acc x ++ "/" := by
  have hxs : headIsSlash (x ++ "/") = headIsSlash x := headIsSlash_append x "/" hxne
  rw [posixJoinStep_clean (hxs.trans hx) hacc hl, posixJoinStep_clean hx hacc hl]
  apply String.ext
  simp [String.data_append]

/-- A trailing `/` on one interior segment does not change the join, as
long as at least one further segment follows. -/
theorem posixpathJoin_trailing_invariant (a x y : String) (post : List String)
    (hy : headIsSlash y = false) (ha : a ≠ "") (hla : lastIsSlash a = false)
    (hx : headIsSlash x = false) (hxne : x ≠ "") (hlx : lastIsSlash x = false) :
    posixpathJoin (posixJoinStep a (x ++ "/")) (y :: post)
      = posixpathJoin (posixJoinStep a x) (y :: post) := by
  have hstep : posixJoinStep a x = a ++ "/" ++ x := posixJoinStep_clean hx ha hla
  have hne : posixJoinStep a x ≠ "" := by
    rw [hstep]; exact append_ne_empty_left _ _ (append_ne_empty_left _ _ ha)
  have hlast : lastIsSlash (posixJoinStep a x) = false := by
    rw [hstep, lastIsSlash_append _ _ hxne]; exact hlx
  rw [posixpathJoin_cons, posixpathJoin_cons,
    posixJoinStep_trailing_piece ha hla hx hxne,
    posixJoinStep_trailing hne hlast hy]

theorem stripLeadingSlash_of_not_slash {u : String} (h : headIsSlash u = false) :
    stripLeadingSlash u = u := by
  unfold stripLeadingSlash
  rw [h]
  rfl

theorem stripLeadingSlash_slash_append (u : String) :
    stripLeadingSlash ("/" ++ u) = u := by
  have hd : ("/" ++ u).data = '/' :: u.data := by
    rw [String.data_append]; rfl
  have hh : headIsSlash ("/" ++ u) = true := by
    unfold headIsSlash; rw [hd]; rfl
  unfold stripLeadingSlash
  rw [hh]
  show strTail ("/" ++ u) = u
  unfold strTail
  apply String.ext
  rw [hd]
  rfl

theorem posixJoinStep_ne_empty {p : String} (b : String) (hp : p ≠ "") :
    posixJoinStep p b ≠ "" := by
  unfold posixJoinStep
  by_cases hb : headIsSlash b = true
  · rw [if_pos hb]
    intro he
    subst he
    exact absurd hb (by decide)
  · rw [if_neg hb]
    by_cases hc : p = "" ∨ lastIsSlash p = true
    · rw [if_pos hc]; exact append_ne_empty_left p b hp
    · rw [if_neg hc]; exact append_ne_empty_left _ _ (append_ne_empty_left _ _ hp)

theorem posixpathJoin_ne_empty : ∀ (ps : List String) (a : String), a ≠ "" →
    posixpathJoin a ps ≠ ""
  | [], _, ha => ha
  | x :: ps, a, ha =>
    posixpathJoin_ne_empty ps (posixJoinStep a x) (posixJoinStep_ne_empty x ha)

theorem lastIsSlash_posixJoinStep_empty {p : String} (hp : p ≠ "") :
    lastIsSlash (posixJoinStep p "") = true := by
  unfold posixJoinStep
  rw [if_neg (by decide : ¬headIsSlash "" = true)]
  by_cases hc : p = "" ∨ lastIsSlash p = true
  · rw [if_pos hc, String.append_empty]
    rcases hc with hc | hc
    · exact absurd hc hp
    · exact hc
  · rw [if_neg hc, String.append_empty]
    exact lastIsSlash_append_slash p

theorem ne_empty_of_lastIsSlash {s : String} (h : lastIsSlash s = true) : s ≠ "" := by
  intro he
  subst he
  exact absurd h (by decide)

/-! ### The claims -/

/-- The kwargs dict `{version: v, namespace: n, pods: p, url: u}`. -/
def exampleParams (version ns pods url : String) : Params := fun k =>
  if k = "version" then some version
  else if k = "namespace" then some ns
  else if k = "pods" then some pods
  else if k = "url" then some url
  else none

/-- The kwargs dict `{version: v}`. -/
def paramsVersionOnly (v : String) : Params := fun k =>
  if k = "version" then some v else none

/-- C5: resolving `{version: "v1", namespace: "default", pods: "foo",
url: "/log"}` against server `https://x:6443` yields exactly
`https://x:6443/api/v1/namespaces/default/pods/foo/log`, the segments being
joined in the fixed order base, version, `namespaces`/namespace,
`pods`/pods, then the url tail with its leading slash stripped. -/
theorem C5_example_resolution :
    (∃ q, get_kwargs ⟨"https://x:6443"⟩ (exampleParams "v1" "default" "foo" "/log") = .ok q
      ∧ q "url" = some "https://x:6443/api/v1/namespaces/default/pods/foo/log")
    ∧ (∀ base version n p url, resolvePath base version (some n) (some p) url
        = posixpathJoin base [version, "namespaces", n, "pods", p, stripLeadingSlash url]) :=
  ⟨⟨_, rfl, rfl⟩, fun _ _ _ _ _ => rfl⟩

/-- C10: version matching is a literal string-prefix test including the
slash: the versions `"extensions"`, `"batch"` and `""` match no known
branch, so `get_kwargs` raises the unknown-version error when `base` is
absent. -/
theorem C10_literal_version_match (self : HTTPClient) (params : Params) (v : String)
    (hv : v = "extensions" ∨ v = "batch" ∨ v = "")
    (hver : params "version" = some v) (hbase : params "base" = none) :
    get_kwargs self params = .error unknownApiVersionMsg := by
  have hres : resolve_base v none = .error unknownApiVersionMsg := by
    rcases hv with h | h | h <;> subst h <;> rfl
  simp only [get_kwargs, hver, hbase, Option.getD_some, hres]

theorem C10_witness :
    get_kwargs ⟨"https://x:6443"⟩ (paramsVersionOnly "extensions")
      = .error unknownApiVersionMsg :=
  C10_literal_version_match ⟨"https://x:6443"⟩ (paramsVersionOnly "extensions")
    "extensions" (Or.inl rfl) rfl rfl

/-- C1: in `get_kwargs`, version `"v1"` defaults the base to `"/api"`;
versions starting with `"extensions/"` or `"batch/"` default it to
`"/apis"`; any other version string makes resolution fail with the
unknown-version error exactly when no `base` is supplied, and succeed
using the supplied base whenever one is supplied. -/
theorem C1_version_base_resolution (self : HTTPClient) (params : Params) (v : String)
    (hv : v = (params "version").getD "v1") :
    (v = "v1" → resolve_base v (params "base") = .ok ((params "base").getD "/api"))
    ∧ ((pyStartsWith v "extensions/" = true ∨ pyStartsWith v "batch/" = true) →
        resolve_base v (params "base") = .ok ((params "base").getD "/apis"))
    ∧ (v ≠ "v1" → pyStartsWith v "extensions/" = false → pyStartsWith v "batch/" = false →
        (params "base" = none → get_kwargs self params = .error unknownApiVersionMsg)
        ∧ (∀ b, params "base" = some b → get_kwargs self params
            = .ok (((((params.erase "version").erase "base").erase "namespace").erase
                "pods").insert "url" (self.url ++ resolvePath b v (params "namespace")
                  (params "pods") ((params "url").getD ""))))) := by
  refine ⟨?_, ?_, ?_⟩
  · intro h
    simp [resolve_base, h]
  · intro h
    have hv1 : v ≠ "v1" := by
      rintro rfl
      rcases h with h | h <;> exact absurd h (by decide)
    unfold resolve_base
    rw [if_neg hv1]
    rcases h with h | h
    · rw [if_pos h]
    · by_cases he : pyStartsWith v "extensions/" = true
      · rw [if_pos he]
      · rw [if_neg he, if_pos h]
  · intro h1 h2 h3
    have hresn : resolve_base v none = .error unknownApiVersionMsg := by
      unfold resolve_base
      rw [if_neg h1, if_neg (by simp [h2]), if_neg (by simp [h3])]
    have hress : ∀ b, resolve_base v (some b) = .ok b := by
      intro b
      unfold resolve_base
      rw [if_neg h1, if_neg (by simp [h2]), if_neg (by simp [h3])]
    constructor
    · intro hbase
      simp only [get_kwargs, ← hv, hbase, hresn]
    · intro b hbase
      simp only [get_kwargs, ← hv, hbase, hress]

theorem C1_witness :
    resolve_base "v1" (paramsVersionOnly "v1" "base")
        = .ok ((paramsVersionOnly "v1" "base").getD "/api")
    ∧ get_kwargs ⟨"https://x:6443"⟩ (paramsVersionOnly "foo/v1")
        = .error unknownApiVersionMsg :=
  ⟨(C1_version_base_resolution ⟨"https://x:6443"⟩ (paramsVersionOnly "v1") "v1" rfl).1 rfl,
   ((C1_version_base_resolution ⟨"https://x:6443"⟩ (paramsVersionOnly "foo/v1")
      "foo/v1" rfl).2.2 (by decide) (by decide) (by decide)).1 rfl⟩

/-- The kwargs dict `{version: "v1", namespace: "default"}` (no `url`). -/
def paramsNoUrl : Params := fun k =>
  if k = "version" then some "v1"
  else if k = "namespace" then some "default"
  else none

/-- C9: when the `url` kwarg is absent or the empty string, `get_kwargs`
appends an empty final segment, so the produced absolute URL ends in a
trailing `/` (given that the resolved base is nonempty). -/
theorem C9_trailing_slash_when_no_url (self : HTTPClient) (params q : Params)
    (u b : String)
    (hurl : params "url" = none ∨ params "url" = some "")
    (hb : resolve_base ((params "version").getD "v1") (params "base") = .ok b)
    (hbne : b ≠ "")
    (hq : get_kwargs self params = .ok q)
    (hu : q "url" = some u) :
    lastIsSlash u = true := by
  simp only [get_kwargs, hb] at hq
  have hqv : q = ((((params.erase "version").erase "base").erase "namespace").erase
      "pods").insert "url" (self.url ++ resolvePath b ((params "version").getD "v1")
        (params "namespace") (params "pods") ((params "url").getD "")) := by
    injection hq with h
    exact h.symm
  subst hqv
  simp only [Params.insert, if_pos rfl] at hu
  injection hu with hu
  subst hu
  have hurl0 : (params "url").getD "" = "" := by
    rcases hurl with h | h <;> rw [h] <;> rfl
  rw [hurl0]
  have hstrip : stripLeadingSlash "" = "" := rfl
  unfold resolvePath
  rw [hstrip]
  rw [posixpathJoin_append, posixpathJoin_cons, posixpathJoin_nil]
  have hfold : posixpathJoin b ([(params "version").getD "v1"]
      ++ (match params "namespace" with | some n => ["namespaces", n] | none => [])
      ++ (match params "pods" with | some p => ["pods", p] | none => [])) ≠ "" :=
    posixpathJoin_ne_empty _ b hbne
  have hlast : lastIsSlash (posixJoinStep (posixpathJoin b _) "") = true :=
    lastIsSlash_posixJoinStep_empty hfold
  rw [lastIsSlash_append _ _ (ne_empty_of_lastIsSlash hlast)]
  exact hlast

theorem C9_witness : lastIsSlash "https://x:6443/api/v1/namespaces/default/" = true :=
  C9_trailing_slash_when_no_url ⟨"https://x:6443"⟩ paramsNoUrl _
    "https://x:6443/api/v1/namespaces/default/" "/api"
    (Or.inl rfl) rfl (by decide) rfl rfl

/-- C6: the params returned by `get_kwargs` contain none of `version`,
`base`, `namespace`, `pods`; the `url` key holds the computed absolute
URL; and every other key passes through unchanged. -/
theorem C6_kwargs_frame (self : HTTPClient) (params q : Params)
    (hq : get_kwargs self params = .ok q) :
    q "version" = none ∧ q "base" = none ∧ q "namespace" = none ∧ q "pods" = none
    ∧ (∃ b, resolve_base ((params "version").getD "v1") (params "base") = .ok b
        ∧ q "url" = some (self.url ++ resolvePath b ((params "version").getD "v1")
            (params "namespace") (params "pods") ((params "url").getD "")))
    ∧ (∀ k, k ≠ "version" → k ≠ "base" → k ≠ "namespace" → k ≠ "pods" → k ≠ "url" →
        q k = params k) := by
  rcases hres : resolve_base ((params "version").getD "v1") (params "base") with e | b
  · rw [get_kwargs, hres] at hq
    exact absurd hq (by simp)
  · rw [get_kwargs, hres] at hq
    injection hq with hq
    subst hq
    refine ⟨rfl, rfl, rfl, rfl, ⟨b, rfl, rfl⟩, ?_⟩
    intro k h1 h2 h3 h4 h5
    simp [Params.insert, Params.erase, h1, h2, h3, h4, h5]

/-- The kwargs dict `{version: "v1", namespace: "default", timeout: "30"}`. -/
def paramsWithTimeout : Params := fun k =>
  if k = "version" then some "v1"
  else if k = "namespace" then some "default"
  else if k = "timeout" then some "30"
  else none

/-- The params that `get_kwargs` returns for `paramsWithTimeout`. -/
def paramsWithTimeoutOut : Params :=
  ((((paramsWithTimeout.erase "version").erase "base").erase "namespace").erase
    "pods").insert "url" ("https://x:6443" ++ resolvePath "/api" "v1" (some "default") none "")

theorem C6_witness :
    get_kwargs ⟨"https://x:6443"⟩ paramsWithTimeout = .ok paramsWithTimeoutOut
    ∧ paramsWithTimeoutOut "version" = none
    ∧ paramsWithTimeoutOut "base" = none
    ∧ paramsWithTimeoutOut "namespace" = none
    ∧ paramsWithTimeoutOut "pods" = none
    ∧ paramsWithTimeoutOut "timeout" = some "30" := by
  have h := C6_kwargs_frame ⟨"https://x:6443"⟩ paramsWithTimeout paramsWithTimeoutOut rfl
  exact ⟨rfl, h.1, h.2.1, h.2.2.1, h.2.2.2.1,
    h.2.2.2.2.2 "timeout" (by decide) (by decide) (by decide) (by decide) (by decide)⟩

/-- A 404 response whose JSON body is
`{"kind": "Status", "message": "pods \"foo\" not found"}`. -/
def resp404 : Response :=
  ⟨404,
   (fun k => if k = "content-type" then some "application/json" else none),
   .ok (fun k =>
     if k = "kind" then some "Status"
     else if k = "message" then some "pods \"foo\" not found"
     else none)⟩

/-- A plain 200 response. -/
def resp200 : Response := ⟨200, fun _ => none, .error ()⟩

/-- C4: `raise_for_status` returns normally on a 2xx response, and on a
non-success response whose content type is exactly `application/json` and
whose body decodes to an object with `kind == "Status"` it raises
`HTTPError` carrying exactly the payload's `message` field. -/
theorem C4_status_translation (resp : Response) :
    (200 ≤ resp.status_code → resp.status_code < 300 → raise_for_status resp = .ok ())
    ∧ (∀ payload m, 400 ≤ resp.status_code → resp.status_code < 600 →
        resp.headers "content-type" = some "application/json" →
        resp.json = .ok payload →
        payload "kind" = some "Status" → payload "message" = some m →
        raise_for_status resp = .error (.httpError m)) := by
  constructor
  · intro h1 h2
    have h : ¬(400 ≤ resp.status_code ∧ resp.status_code < 600) := by omega
    simp [raise_for_status, requests_raise_for_status, h]
  · intro payload m h1 h2 hct hj hk hm
    have h : 400 ≤ resp.status_code ∧ resp.status_code < 600 := ⟨h1, h2⟩
    simp [raise_for_status, requests_raise_for_status, h, hct, hj, hk, hm]

theorem C4_witness :
    raise_for_status resp200 = .ok ()
    ∧ raise_for_status resp404 = .error (.httpError "pods \"foo\" not found") :=
  ⟨(C4_status_translation resp200).1 (by decide) (by decide),
   (C4_status_translation resp404).2 _ "pods \"foo\" not found"
     (by decide) (by decide) rfl rfl rfl rfl⟩

/-- Config with only a bearer token. -/
def configToken : Config :=
  ⟨fun _ => none, fun k => if k = "token" then some "secret" else none⟩

/-- Config with no user credentials at all. -/
def configNoToken : Config := ⟨fun _ => none, fun _ => none⟩

/-- Config with a client certificate and key. -/
def configCert : Config :=
  ⟨fun _ => none,
   fun k =>
     if k = "client-certificate" then some "/c.pem"
     else if k = "client-key" then some "/k.pem"
     else none⟩

/-- Config with a client certificate but no client key. -/
def configCertOnly : Config :=
  ⟨fun _ => none, fun k => if k = "client-certificate" then some "/c.pem" else none⟩

/-- C7: with `client-certificate` present, `build_session` configures the
certificate pair when `client-key` is present too, and fails with the
missing-key error when `client-key` is absent. -/
theorem C7_client_cert (config : Config) (cc : String)
    (hcc : config.user "client-certificate" = some cc) :
    (∀ ck, config.user "client-key" = some ck →
      ∃ s, build_session config = .ok s ∧ s.cert = some (cc, ck))
    ∧ (config.user "client-key" = none →
      build_session config = .error (.keyError "client-key")) := by
  constructor
  · intro ck hck
    refine ⟨⟨config.cluster "certificate-authority", sessionHeaders config,
      some (cc, ck)⟩, ?_, rfl⟩
    simp only [build_session, hcc, hck]
  · intro hck
    simp only [build_session, hcc, hck]

theorem C7_witness :
    (build_session configCert).map Session.cert = .ok (some ("/c.pem", "/k.pem"))
    ∧ build_session configCertOnly = .error (.keyError "client-key") := by
  constructor
  · obtain ⟨s, hs, hc⟩ := (C7_client_cert configCert "/c.pem" rfl).1 "/k.pem" rfl
    rw [hs]
    simp [Except.map, hc]
  · exact (C7_client_cert configCertOnly "/c.pem" rfl).2 rfl

/-- C8: the session carries an `Authorization` header of exactly
`Bearer <token>` if and only if the user's `token` entry is present and
non-empty; an absent or empty token sets no such header. -/
theorem C8_bearer_token (config : Config) (s : Session)
    (hs : build_session config = .ok s) :
    (∀ t, config.user "token" = some t → t ≠ "" →
        s.headers "Authorization" = some ("Bearer " ++ t))
    ∧ ((config.user "token" = none ∨ config.user "token" = some "") →
        s.headers "Authorization" = none)
    ∧ (∀ v, s.headers "Authorization" = some v →
        ∃ t, config.user "token" = some t ∧ t ≠ "" ∧ v = "Bearer " ++ t) := by
  have hh : s.headers = sessionHeaders config := by
    unfold build_session at hs
    rcases hcc : config.user "client-certificate" with _ | cc
    · rw [hcc] at hs
      injection hs with h
      rw [← h]
    · rw [hcc] at hs
      rcases hck : config.user "client-key" with _ | ck
      · rw [hck] at hs
        exact absurd hs (by simp)
      · rw [hck] at hs
        injection hs with h
        rw [← h]
  refine ⟨?_, ?_, ?_⟩
  · intro t ht hne
    rw [hh]
    simp only [sessionHeaders, ht]
    rw [if_pos hne]
    simp [Params.insert]
  · intro h
    rw [hh]
    rcases h with h | h
    · simp [sessionHeaders, h]
    · simp [sessionHeaders, h]
  · intro v hv
    rw [hh] at hv
    rcases ht : config.user "token" with _ | t
    · simp [sessionHeaders, ht] at hv
    · simp only [sessionHeaders, ht] at hv
      by_cases hne : t = ""
      · subst hne
        simp at hv
      · rw [if_pos hne] at hv
        simp [Params.insert] at hv
        exact ⟨t, rfl, hne, hv.symm⟩

theorem C8_witness :
    (sessionHeaders configToken) "Authorization" = some ("Bearer " ++ "secret")
    ∧ (sessionHeaders configNoToken) "Authorization" = none :=
  ⟨(C8_bearer_token configToken
      ⟨none, sessionHeaders configToken, none⟩ rfl).1 "secret" rfl (by decide),
   (C8_bearer_token configNoToken
      ⟨none, sessionHeaders configNoToken, none⟩ rfl).2.1 (Or.inl rfl)⟩

theorem data_empty : ("" : String).data = [] := rfl

theorem resolvePath_eq (base version n p url : String) :
    resolvePath base version (some n) (some p) url
      = posixpathJoin base [version, "namespaces", n, "pods", p, stripLeadingSlash url] :=
  rfl

/-- C2 counterexample: a leading slash on the `namespace` value changes
the resolved URL — `posixpath.join` discards everything before a component
that starts with `/`. -/
theorem C2_counterexample :
    (get_kwargs ⟨"https://x:6443"⟩ (exampleParams "v1" "/default" "foo" "/log")).map
        (fun q => q "url") = .ok (some "https://x:6443/default/pods/foo/log")
    ∧ (get_kwargs ⟨"https://x:6443"⟩ (exampleParams "v1" "default" "foo" "/log")).map
        (fun q => q "url")
        = .ok (some "https://x:6443/api/v1/namespaces/default/pods/foo/log")
    ∧ "https://x:6443/default/pods/foo/log"
        ≠ "https://x:6443/api/v1/namespaces/default/pods/foo/log" :=
  ⟨rfl, rfl, by decide⟩

/-- C2 (amended): with slash-free nonempty segments and a `/`-prefixed
base, the resolved path has exactly one `/` between consecutive segments,
and it is unchanged by a trailing `/` added to base, version, namespace,
or pods, or by dropping the leading `/` of url; it is not invariant under
leading slashes on interior segments (see the counterexample). -/
theorem C2_amended_slash_insensitivity (b version n p u : String)
    (hb : slashFree b) (hbne : b ≠ "")
    (hv : slashFree version) (hvne : version ≠ "")
    (hn : slashFree n) (hnne : n ≠ "")
    (hp : slashFree p) (hpne : p ≠ "")
    (hu : slashFree u) :
    resolvePath ("/" ++ b) version (some n) (some p) ("/" ++ u)
      = "/" ++ b ++ "/" ++ version ++ "/" ++ "namespaces" ++ "/" ++ n ++ "/" ++ "pods"
          ++ "/" ++ p ++ "/" ++ u
    ∧ resolvePath ("/" ++ b ++ "/") version (some n) (some p) ("/" ++ u)
      = resolvePath ("/" ++ b) version (some n) (some p) ("/" ++ u)
    ∧ resolvePath ("/" ++ b) (version ++ "/") (some n) (some p) ("/" ++ u)
      = resolvePath ("/" ++ b) version (some n) (some p) ("/" ++ u)
    ∧ resolvePath ("/" ++ b) version (some (n ++ "/")) (some p) ("/" ++ u)
      = resolvePath ("/" ++ b) version (some n) (some p) ("/" ++ u)
    ∧ resolvePath ("/" ++ b) version (some n) (some (p ++ "/")) ("/" ++ u)
      = resolvePath ("/" ++ b) version (some n) (some p) ("/" ++ u)
    ∧ resolvePath ("/" ++ b) version (some n) (some p) u
      = resolvePath ("/" ++ b) version (some n) (some p) ("/" ++ u) := by
  have ha : "/" ++ b ≠ "" := append_ne_empty_left _ _ (by decide)
  have hla : lastIsSlash ("/" ++ b) = false :=
    (lastIsSlash_append "/" b hbne).trans (lastIsSlash_eq_false_of_slashFree hb)
  have hv' : headIsSlash version = false := headIsSlash_eq_false_of_slashFree hv
  have hlv : lastIsSlash version = false := lastIsSlash_eq_false_of_slashFree hv
  have hn' : headIsSlash n = false := headIsSlash_eq_false_of_slashFree hn
  have hln : lastIsSlash n = false := lastIsSlash_eq_false_of_slashFree hn
  have hp' : headIsSlash p = false := headIsSlash_eq_false_of_slashFree hp
  have hlp : lastIsSlash p = false := lastIsSlash_eq_false_of_slashFree hp
  have hu' : headIsSlash u = false := headIsSlash_eq_false_of_slashFree hu
  refine ⟨?_, ?_, ?_, ?_, ?_, ?_⟩
  · rw [resolvePath_eq, stripLeadingSlash_slash_append]
    have hcore := posixpathJoin_clean [version, "namespaces", n, "pods", p]
      ("/" ++ b) ha hla (by
        intro s hs
        fin_cases hs
        · exact ⟨hv, hvne⟩
        · decide
        · exact ⟨hn, hnne⟩
        · decide
        · exact ⟨hp, hpne⟩)
    have hsplit : [version, "namespaces", n, "pods", p, u]
        = [version, "namespaces", n, "pods", p] ++ [u] := rfl
    rw [hsplit, posixpathJoin_append, posixpathJoin_cons, posixpathJoin_nil, hcore.1,
      posixJoinStep_clean hu' (hcore.1 ▸ hcore.2.1) (hcore.1 ▸ hcore.2.2)]
    apply String.ext
    simp [canonPath, String.data_append, data_empty]
  · rw [resolvePath_eq, resolvePath_eq, stripLeadingSlash_slash_append]
    show posixpathJoin (posixJoinStep (("/" ++ b) ++ "/") version)
        ["namespaces", n, "pods", p, u]
      = posixpathJoin (posixJoinStep ("/" ++ b) version) ["namespaces", n, "pods", p, u]
    rw [posixJoinStep_trailing ha hla hv']
  · rw [resolvePath_eq, resolvePath_eq, stripLeadingSlash_slash_append]
    show posixpathJoin (posixJoinStep ("/" ++ b) (version ++ "/"))
        ["namespaces", n, "pods", p, u]
      = posixpathJoin (posixJoinStep ("/" ++ b) version) ["namespaces", n, "pods", p, u]
    exact posixpathJoin_trailing_invariant ("/" ++ b) version "namespaces" [n, "pods", p, u]
      (by decide) ha hla hv' hvne hlv
  · rw [resolvePath_eq, resolvePath_eq, stripLeadingSlash_slash_append]
    have hc2 := posixpathJoin_clean [version, "namespaces"] ("/" ++ b) ha hla (by
      intro s hs
      fin_cases hs
      · exact ⟨hv, hvne⟩
      · decide)
    show posixpathJoin
        (posixJoinStep (posixJoinStep (posixJoinStep ("/" ++ b) version) "namespaces")
          (n ++ "/")) ["pods", p, u]
      = posixpathJoin
        (posixJoinStep (posixJoinStep (posixJoinStep ("/" ++ b) version) "namespaces") n)
          ["pods", p, u]
    exact posixpathJoin_trailing_invariant _ n "pods" [p, u] (by decide)
      hc2.2.1 hc2.2.2 hn' hnne hln
  · rw [resolvePath_eq, resolvePath_eq, stripLeadingSlash_slash_append]
    have hc4 := posixpathJoin_clean [version, "namespaces", n, "pods"] ("/" ++ b) ha hla (by
      intro s hs
      fin_cases hs
      · exact ⟨hv, hvne⟩
      · decide
      · exact ⟨hn, hnne⟩
      · decide)
    show posixpathJoin
        (posixJoinStep (posixpathJoin ("/" ++ b) [version, "namespaces", n, "pods"])
          (p ++ "/")) [u]
      = posixpathJoin
        (posixJoinStep (posixpathJoin ("/" ++ b) [version, "namespaces", n, "pods"]) p) [u]
    exact posixpathJoin_trailing_invariant _ p u [] hu' hc4.2.1 hc4.2.2 hp' hpne hlp
  · rw [resolvePath_eq, resolvePath_eq, stripLeadingSlash_slash_append,
      stripLeadingSlash_of_not_slash hu']

theorem C2_witness :
    resolvePath "/api" "v1" (some "default/") (some "foo") "/log"
      = resolvePath "/api" "v1" (some "default") (some "foo") "/log" :=
  (C2_amended_slash_insensitivity "api" "v1" "default" "foo" "log"
    (by decide) (by decide) (by decide) (by decide) (by decide) (by decide)
    (by decide) (by decide) (by decide)).2.2.2.1

/-- A 500 response whose content type claims JSON but whose body fails to
decode. -/
def resp500bad : Response :=
  ⟨500, (fun k => if k = "content-type" then some "application/json" else none), .error ()⟩

/-- A 500 response with a plain-text content type. -/
def resp500text : Response :=
  ⟨500, (fun k => if k = "content-type" then some "text/plain" else none), .error ()⟩

/-- C3 counterexample: on a 500 response with content type
`application/json` and a malformed body, `raise_for_status` raises the
JSON decode error, not the original transport error. -/
theorem C3_counterexample :
    raise_for_status resp500bad = .error .jsonDecodeError
    ∧ PyError.jsonDecodeError ≠ PyError.transportError 500 :=
  ⟨rfl, by decide⟩

/-- C3 (amended): for a non-success response, the original transport error
is re-raised when the content type is present and differs from
`application/json`, or when the payload's `kind` field is present and is
not `"Status"`; but a failure of the extraction attempt itself — missing
`content-type` header, JSON decode failure, or missing `kind` field —
raises its own exception in place of the original error. -/
theorem C3_amended_error_fallback (resp : Response)
    (hfail : 400 ≤ resp.status_code ∧ resp.status_code < 600) :
    (∀ ct, resp.headers "content-type" = some ct → ct ≠ "application/json" →
        raise_for_status resp = .error (.transportError resp.status_code))
    ∧ (∀ payload k, resp.headers "content-type" = some "application/json" →
        resp.json = .ok payload → payload "kind" = some k → k ≠ "Status" →
        raise_for_status resp = .error (.transportError resp.status_code))
    ∧ (resp.headers "content-type" = none →
        raise_for_status resp = .error (.keyError "content-type"))
    ∧ (resp.headers "content-type" = some "application/json" →
        (resp.json = .error () → raise_for_status resp = .error .jsonDecodeError)
        ∧ (∀ payload, resp.json = .ok payload → payload "kind" = none →
            raise_for_status resp = .error (.keyError "kind"))) := by
  refine ⟨?_, ?_, ?_, ?_⟩
  · intro ct hct hne
    simp [raise_for_status, requests_raise_for_status, hfail, hct, hne]
  · intro payload k hct hj hk hne
    simp [raise_for_status, requests_raise_for_status, hfail, hct, hj, hk, hne]
  · intro hct
    simp [raise_for_status, requests_raise_for_status, hfail, hct]
  · intro hct
    constructor
    · intro hj
      simp [raise_for_status, requests_raise_for_status, hfail, hct, hj]
    · intro payload hj hk
      simp [raise_for_status, requests_raise_for_status, hfail, hct, hj, hk]

theorem C3_witness :
    raise_for_status resp500text = .error (.transportError 500) :=
  (C3_amended_error_fallback resp500text (by decide)).1 "text/plain" rfl (by decide)

end Pykube
